import Mathlib

/-!
# FVF vertex-size decoder (`tools/remaster/scrap_parse/get_vertex_size.cpp`)

Shallow embedding of `_D3DXGetFVFVertexSize`.

* `uint` values are natural numbers; every theorem about "a 32-bit fvf"
  carries the bound `fvf < uintBound`, that is `fvf < 2 ^ 32`.  The operations
  the function applies to them (`&`, `>>`, a decrement guarded by `!= 0`)
  cannot leave the 32-bit range, so no reduction modulo `2 ^ 32` is needed.
* `int vert_size` is an integer; the accumulated totals stay far below
  `2 ^ 31` (see `vertSize_le`), so no wrap-around occurs.
* The comparison on source line 39, `fvf < '\0'`, has an operand of type
  `uint` and the character constant zero; the usual arithmetic conversions
  turn the constant into the unsigned value `0`, and the comparison is the
  unsigned one.  It is embedded as such (`fvf < charNul`).
-/

namespace ScrapParse

/-! ## The embedding -/

/-- Modelled from the spec: the declaration of the type `uint` of `fvf`,
`uVar1`, `uVar2` and `uVar3` is not among the sources; sections 3 and 6 of the
specification give the parameter as a 32-bit unsigned integer.  A `uint` is a
natural number below `uintBound`. -/
def uintBound : Nat := 2 ^ 32

/-- The character constant written `'\0'` on source line 39, after conversion
to the type `uint` of the other operand of the comparison. -/
def charNul : Nat := 0

/-- Source lines 10 to 29: the position-type field `fvf & 0xe` selects the
initial value of `vert_size`. -/
def positionSize (fvf : Nat) : Int :=
  let uVar1 := fvf &&& 0xe
  if uVar1 = 2 then 0xc
  else if uVar1 = 4 ∨ uVar1 = 6 then 0x10
  else if uVar1 = 8 then 0x14
  else if uVar1 = 0xa then 0x18
  else if uVar1 = 0xc then 0x1c
  else if uVar1 = 0xe then 0x20
  else 0

/-- Source lines 30 to 32: the normal flag. -/
def normalStep (fvf : Nat) (vert_size : Int) : Int :=
  if fvf &&& 0x10 ≠ 0 then vert_size + 0xc else vert_size

/-- Source lines 33 to 35: the point-size flag. -/
def pointSizeStep (fvf : Nat) (vert_size : Int) : Int :=
  if fvf &&& 0x20 ≠ 0 then vert_size + 4 else vert_size

/-- Source lines 36 to 38: the diffuse flag. -/
def diffuseStep (fvf : Nat) (vert_size : Int) : Int :=
  if fvf &&& 0x40 ≠ 0 then vert_size + 4 else vert_size

/-- Source lines 39 to 41: `if (fvf < '\0') vert_size += 4;`, an unsigned
comparison of `fvf` with zero. -/
def specularStep (fvf : Nat) (vert_size : Int) : Int :=
  if fvf < charNul then vert_size + 4 else vert_size

/-- Source lines 49 to 61: one texture set, selected by the two low bits of
`uVar3`. -/
def texSetStep (uVar3 : Nat) (vert_size : Int) : Int :=
  let uVar2 := uVar3 &&& 3
  if uVar2 = 0 then vert_size + 8
  else if uVar2 = 1 then vert_size + 0xc
  else if uVar2 = 2 then vert_size + 0x10
  else if uVar2 = 3 then vert_size + 4
  else vert_size

/-- The value returned together with the number of times the loop body
(source lines 49 to 62) was executed. -/
structure Outcome where
  vert_size : Int
  iterations : Nat
  deriving DecidableEq, Repr

/-- Source lines 48 to 63: `for (; uVar1 != 0; uVar1 -= 1) { ...; uVar3 >>= 2; }`.
The first argument is `uVar1`: the loop is left when it is `0`, and otherwise
the body runs and the loop continues with `uVar1 - 1`.  The last argument
counts the executions of the body. -/
def texLoop : Nat → Nat → Int → Nat → Outcome
  | 0, _, vert_size, k => ⟨vert_size, k⟩
  | uVar1 + 1, uVar3, vert_size, k =>
      texLoop uVar1 (uVar3 >>> 2) (texSetStep uVar3 vert_size) (k + 1)

/-- Source lines 42 to 65: the texture-coordinate sets. -/
def texCoordStep (fvf : Nat) (vert_size : Int) : Outcome :=
  let uVar1 := fvf >>> 8 &&& 0xf
  let uVar3 := fvf >>> 16
  if uVar3 = 0 then ⟨vert_size + ((uVar1 * 8 : Nat) : Int), 0⟩
  else texLoop uVar1 uVar3 vert_size 0

/-- The whole body of `_D3DXGetFVFVertexSize`, with the iteration count of
its loop. -/
def run (fvf : Nat) : Outcome :=
  texCoordStep fvf
    (specularStep fvf (diffuseStep fvf (pointSizeStep fvf (normalStep fvf (positionSize fvf)))))

/-- The function `int _D3DXGetFVFVertexSize(uint fvf)`. -/
def _D3DXGetFVFVertexSize (fvf : Nat) : Int :=
  (run fvf).vert_size

/-- A call made in an ambient program state `s` (globals, heap, anything that
outlives the call).  The body names its parameter and the locals `uVar1`,
`uVar2`, `uVar3` and `vert_size` only, so the state is handed back as it was
received and takes no part in the result. -/
def call {σ : Type} (s : σ) (fvf : Nat) : Int × σ :=
  (_D3DXGetFVFVertexSize fvf, s)

/-! ## The reference total of the specification -/

/-- Specification, section 4.1 step 1: the table of base sizes, applied to the
field `fvf & 0xE`. -/
def specBase (field : Nat) : Int :=
  match field with
  | 2 => 12
  | 4 => 16
  | 6 => 16
  | 8 => 20
  | 10 => 24
  | 12 => 28
  | 14 => 32
  | _ => 0

/-- Specification, section 4.1 step 6: the contribution of one 2-bit code. -/
def specCodeSize (code : Nat) : Int :=
  match code with
  | 0 => 8
  | 1 => 12
  | 2 => 16
  | _ => 4

/-- Specification, section 4.1 step 6: the texture contribution for count `n`
and table `t`. -/
def specTex (n t : Nat) : Int :=
  if t = 0 then 8 * (n : Int)
  else ∑ i in Finset.range n, specCodeSize (t >>> (2 * i) &&& 3)

/-- Specification, section 4.1 steps 1 to 7: the reference total. -/
def specTotal (fvf : Nat) : Int :=
  specBase (fvf &&& 0xE)
    + (if fvf &&& 0x10 ≠ 0 then 12 else 0)
    + (if fvf &&& 0x20 ≠ 0 then 4 else 0)
    + (if fvf &&& 0x40 ≠ 0 then 4 else 0)
    + (if fvf &&& 0x80000000 ≠ 0 then 4 else 0)
    + specTex (fvf >>> 8 &&& 0xF) (fvf >>> 16)

/-! ## Lemmas on the loop -/

theorem and_three_lt (x : Nat) : x &&& 3 < 4 := by
  have h : x &&& 3 = x % 4 := Nat.and_pow_two_sub_one_eq_mod x 2
  omega

theorem texSetStep_eq (uVar3 : Nat) (v : Int) :
    texSetStep uVar3 v = v + specCodeSize (uVar3 &&& 3) := by
  have h := and_three_lt uVar3
  unfold texSetStep
  generalize uVar3 &&& 3 = c at h
  interval_cases c <;> simp [specCodeSize]

theorem texLoop_eq (n : Nat) : ∀ (t : Nat) (v : Int) (k : Nat),
    texLoop n t v k =
      ⟨v + ∑ i in Finset.range n, specCodeSize (t >>> (2 * i) &&& 3), k + n⟩ := by
  induction n with
  | zero => intro t v k; simp [texLoop]
  | succ m ih =>
    intro t v k
    have hs : ∀ i, t >>> 2 >>> (2 * i) = t >>> (2 * (i + 1)) := by
      intro i
      rw [← Nat.shiftRight_add]
      congr 1
      omega
    rw [texLoop, ih, Finset.sum_range_succ', texSetStep_eq]
    simp only [hs, Nat.mul_zero, Nat.shiftRight_zero]
    congr 1
    · ring
    · omega

/-! ## Lemmas on bit fields -/

theorem shiftRight_or (a b k : Nat) : (a ||| b) >>> k = a >>> k ||| b >>> k := by
  apply Nat.eq_of_testBit_eq
  simp

theorem shiftRight_and (a b k : Nat) : (a &&& b) >>> k = a >>> k &&& b >>> k := by
  apply Nat.eq_of_testBit_eq
  simp

theorem shiftRight_eq_zero_of_lt {x k : Nat} (h : x < 2 ^ k) : x >>> k = 0 := by
  rw [Nat.shiftRight_eq_div_pow]
  exact Nat.div_eq_of_lt h

theorem table_lt {fvf : Nat} (h : fvf < 2 ^ 32) : fvf >>> 16 < 2 ^ 16 := by
  rw [Nat.shiftRight_eq_div_pow]
  omega

theorem count_lt (fvf : Nat) : fvf >>> 8 &&& 0xf < 16 := by
  have h : fvf >>> 8 &&& 0xf = fvf >>> 8 % 2 ^ 4 := Nat.and_pow_two_sub_one_eq_mod _ 4
  omega

/-- Past the sixteen bits of the table every code reads as `0`. -/
theorem code_eq_zero_of_ge {t i : Nat} (ht : t < 2 ^ 16) (hi : 8 ≤ i) :
    t >>> (2 * i) &&& 3 = 0 := by
  have h : t >>> (2 * i) = 0 := by
    apply shiftRight_eq_zero_of_lt
    calc t < 2 ^ 16 := ht
      _ ≤ 2 ^ (2 * i) := Nat.pow_le_pow_right (by decide) (by omega)
  simp [h]

/-! ## The result as a sum of contributions -/

theorem normalStep_eq (fvf : Nat) (v : Int) : normalStep fvf v = v + normalStep fvf 0 := by
  unfold normalStep; split <;> simp

theorem pointSizeStep_eq (fvf : Nat) (v : Int) :
    pointSizeStep fvf v = v + pointSizeStep fvf 0 := by
  unfold pointSizeStep; split <;> simp

theorem diffuseStep_eq (fvf : Nat) (v : Int) : diffuseStep fvf v = v + diffuseStep fvf 0 := by
  unfold diffuseStep; split <;> simp

theorem specularStep_eq (fvf : Nat) (v : Int) :
    specularStep fvf v = v + specularStep fvf 0 := by
  unfold specularStep; split <;> simp

/-- Both branches of the texture step add the sum of the sizes of the first
`n` codes of the table, and the loop body runs `n` times on the table branch
and never on the other. -/
theorem texCoordStep_eq (fvf : Nat) (v : Int) :
    texCoordStep fvf v =
      ⟨v + ∑ i in Finset.range (fvf >>> 8 &&& 0xf),
            specCodeSize (fvf >>> 16 >>> (2 * i) &&& 3),
        if fvf >>> 16 = 0 then 0 else fvf >>> 8 &&& 0xf⟩ := by
  unfold texCoordStep
  by_cases h : fvf >>> 16 = 0
  · simp [h, specCodeSize]
  · simp [h, texLoop_eq]

/-- The returned value is the sum of the six contributions. -/
theorem vertSize_eq (fvf : Nat) :
    _D3DXGetFVFVertexSize fvf =
      positionSize fvf + normalStep fvf 0 + pointSizeStep fvf 0 + diffuseStep fvf 0
        + specularStep fvf 0
        + ∑ i in Finset.range (fvf >>> 8 &&& 0xf),
            specCodeSize (fvf >>> 16 >>> (2 * i) &&& 3) := by
  unfold _D3DXGetFVFVertexSize run
  rw [texCoordStep_eq, specularStep_eq, diffuseStep_eq, pointSizeStep_eq, normalStep_eq]

theorem positionSize_eq_specBase (fvf : Nat) : positionSize fvf = specBase (fvf &&& 0xE) := by
  have h : fvf &&& 0xe < 16 := Nat.and_lt_two_pow fvf (by decide : 0xe < 2 ^ 4)
  unfold positionSize
  generalize fvf &&& 0xe = c at h
  interval_cases c <;> simp [specBase]

/-! ## Inputs that agree on the fields the function reads -/

theorem or_and_mask {a b m : Nat} (h : b &&& m = 0) : (a ||| b) &&& m = a &&& m := by
  rw [Nat.and_distrib_right, h, Nat.or_zero]

theorem or_shiftRight {a b k : Nat} (h : b >>> k = 0) : (a ||| b) >>> k = a >>> k := by
  rw [shiftRight_or, h, Nat.or_zero]

theorem and_and_mask {a b m : Nat} (h : b &&& m = m) : (a &&& b) &&& m = a &&& m := by
  rw [Nat.and_assoc, h]

theorem positionSize_congr {a b : Nat} (h : a &&& 0xe = b &&& 0xe) :
    positionSize a = positionSize b := by
  unfold positionSize; rw [h]

theorem normalStep_congr {a b : Nat} (h : a &&& 0x10 = b &&& 0x10) (v : Int) :
    normalStep a v = normalStep b v := by
  unfold normalStep; rw [h]

theorem pointSizeStep_congr {a b : Nat} (h : a &&& 0x20 = b &&& 0x20) (v : Int) :
    pointSizeStep a v = pointSizeStep b v := by
  unfold pointSizeStep; rw [h]

theorem diffuseStep_congr {a b : Nat} (h : a &&& 0x40 = b &&& 0x40) (v : Int) :
    diffuseStep a v = diffuseStep b v := by
  unfold diffuseStep; rw [h]

theorem specularStep_congr (a b : Nat) (v : Int) : specularStep a v = specularStep b v := by
  simp [specularStep, charNul]

theorem texCoordStep_congr {a b : Nat} (h8 : a >>> 8 &&& 0xf = b >>> 8 &&& 0xf)
    (h16 : a >>> 16 = b >>> 16) (v : Int) : texCoordStep a v = texCoordStep b v := by
  unfold texCoordStep; rw [h8, h16]

/-- Setting a bit below bit 8, outside the position field, leaves the
position size, the texture count and the texture table as they were. -/
theorem low_flag_frame (fvf c : Nat) (hc : c < 2 ^ 8) (he : c &&& 0xe = 0) :
    positionSize (fvf ||| c) = positionSize fvf ∧
      (fvf ||| c) >>> 8 &&& 0xf = fvf >>> 8 &&& 0xf ∧
      (fvf ||| c) >>> 16 = fvf >>> 16 := by
  have h8 : c >>> 8 = 0 := shiftRight_eq_zero_of_lt hc
  have h16 : c >>> 16 = 0 := shiftRight_eq_zero_of_lt (by omega)
  refine ⟨positionSize_congr (or_and_mask he), ?_, or_shiftRight h16⟩
  rw [shiftRight_or, h8, Nat.or_zero]

/-- A table whose low `2 * n` bits are zero gives code `0` to each of the
first `n` sets. -/
theorem code_eq_zero_of_low_bits {t n i : Nat} (h : t &&& (2 ^ (2 * n) - 1) = 0) (hi : i < n) :
    t >>> (2 * i) &&& 3 = 0 := by
  apply Nat.eq_of_testBit_eq
  intro j
  have h3 : (3 : Nat) = 2 ^ 2 - 1 := rfl
  rw [h3]
  simp only [Nat.testBit_and, Nat.testBit_shiftRight, Nat.testBit_two_pow_sub_one,
    Nat.zero_testBit]
  by_cases hj : j < 2
  · have hbit := congrArg (fun x => x.testBit (2 * i + j)) h
    simp only [Nat.testBit_and, Nat.testBit_two_pow_sub_one, Nat.zero_testBit] at hbit
    have hlt : 2 * i + j < 2 * n := by omega
    have hfalse : t.testBit (2 * i + j) = false := by simpa [hlt] using hbit
    simp [hfalse]
  · simp [hj]

/-- Clearing bits 8 to 11 keeps the flag fields and empties the count. -/
theorem clear_count_frame (fvf : Nat) :
    (fvf &&& 0xFFFFF0FF) &&& 0xe = fvf &&& 0xe ∧
      (fvf &&& 0xFFFFF0FF) &&& 0x10 = fvf &&& 0x10 ∧
      (fvf &&& 0xFFFFF0FF) &&& 0x20 = fvf &&& 0x20 ∧
      (fvf &&& 0xFFFFF0FF) &&& 0x40 = fvf &&& 0x40 ∧
      (fvf &&& 0xFFFFF0FF) >>> 8 &&& 0xf = 0 := by
  refine ⟨and_and_mask (by decide), and_and_mask (by decide), and_and_mask (by decide),
    and_and_mask (by decide), ?_⟩
  rw [shiftRight_and, Nat.and_assoc]
  have h : (0xFFFFF0FF : Nat) >>> 8 &&& 0xf = 0 := by decide
  rw [h, Nat.and_zero]

/-! ## Bounds -/

theorem specBase_bounds (c : Nat) : 0 ≤ specBase c ∧ specBase c ≤ 32 := by
  unfold specBase
  split <;> omega

theorem specCodeSize_bounds (c : Nat) : 4 ≤ specCodeSize c ∧ specCodeSize c ≤ 16 := by
  unfold specCodeSize
  split <;> omega

theorem normalStep_bounds (fvf : Nat) : 0 ≤ normalStep fvf 0 ∧ normalStep fvf 0 ≤ 12 := by
  unfold normalStep
  split <;> omega

theorem pointSizeStep_bounds (fvf : Nat) :
    0 ≤ pointSizeStep fvf 0 ∧ pointSizeStep fvf 0 ≤ 4 := by
  unfold pointSizeStep
  split <;> omega

theorem diffuseStep_bounds (fvf : Nat) : 0 ≤ diffuseStep fvf 0 ∧ diffuseStep fvf 0 ≤ 4 := by
  unfold diffuseStep
  split <;> omega

theorem specularStep_zero (fvf : Nat) : specularStep fvf 0 = 0 := by
  simp [specularStep, charNul]

/-- The texture contribution of a 32-bit input is at most `8 * 16 + 7 * 8`. -/
theorem texSum_bounds {fvf : Nat} (h32 : fvf < 2 ^ 32) :
    0 ≤ ∑ i in Finset.range (fvf >>> 8 &&& 0xf), specCodeSize (fvf >>> 16 >>> (2 * i) &&& 3) ∧
      ∑ i in Finset.range (fvf >>> 8 &&& 0xf), specCodeSize (fvf >>> 16 >>> (2 * i) &&& 3)
        ≤ 184 := by
  constructor
  · exact Finset.sum_nonneg (fun i _ => by have := (specCodeSize_bounds (fvf >>> 16 >>> (2 * i) &&& 3)).1; omega)
  · have hterm : ∀ i, specCodeSize (fvf >>> 16 >>> (2 * i) &&& 3)
        ≤ if i < 8 then 16 else 8 := by
      intro i
      by_cases hi : i < 8
      · rw [if_pos hi]
        exact (specCodeSize_bounds _).2
      · rw [if_neg hi, code_eq_zero_of_ge (table_lt h32) (by omega)]
        decide
    have hn := count_lt fvf
    calc ∑ i in Finset.range (fvf >>> 8 &&& 0xf), specCodeSize (fvf >>> 16 >>> (2 * i) &&& 3)
        ≤ ∑ i in Finset.range (fvf >>> 8 &&& 0xf), (if i < 8 then (16 : Int) else 8) :=
          Finset.sum_le_sum (fun i _ => hterm i)
      _ ≤ 184 := by
          generalize fvf >>> 8 &&& 0xf = n at hn
          interval_cases n <;> decide

/-- The returned value of a 32-bit input lies between `0` and `236`, far
inside the range of `int`. -/
theorem vertSize_le (fvf : Nat) (h32 : fvf < 2 ^ 32) :
    0 ≤ _D3DXGetFVFVertexSize fvf ∧ _D3DXGetFVFVertexSize fvf ≤ 236 := by
  have hp := specBase_bounds (fvf &&& 0xE)
  have hn := normalStep_bounds fvf
  have hps := pointSizeStep_bounds fvf
  have hd := diffuseStep_bounds fvf
  have ht := texSum_bounds h32
  rw [vertSize_eq, specularStep_zero, positionSize_eq_specBase]
  omega

/-! ## The claims -/

/-- C1 (the code departs from the reference total): at `fvf = 0x80000000` the
function returns `0`, while the reference total of the specification, which
adds 4 when bit 31 is set, is `4`. -/
theorem C1_reference_total_differs :
    _D3DXGetFVFVertexSize 0x80000000 = 0 ∧ specTotal 0x80000000 = 4 := by
  constructor <;> decide

/-- The function and the reference total differ by the specular term and by
nothing else: for every `fvf` the returned value plus 4 when bit 31 is set is
the reference total. -/
theorem vertSize_add_specular (fvf : Nat) :
    _D3DXGetFVFVertexSize fvf + (if fvf &&& 0x80000000 ≠ 0 then 4 else 0) = specTotal fvf := by
  have ht : specTex (fvf >>> 8 &&& 0xF) (fvf >>> 16) =
      ∑ i in Finset.range (fvf >>> 8 &&& 0xf), specCodeSize (fvf >>> 16 >>> (2 * i) &&& 3) := by
    unfold specTex
    by_cases h : fvf >>> 16 = 0
    · simp [h, specCodeSize, mul_comm]
    · simp [h]
  have hs : specularStep fvf 0 = 0 := by simp [specularStep, charNul]
  rw [vertSize_eq, specTotal, ht, hs, positionSize_eq_specBase]
  simp only [normalStep, pointSizeStep, diffuseStep]
  split <;> split <;> split <;> split <;> simp <;> ring

/-- C2 (the code returns 12 where 16 is specified): at `fvf = 0x80000002`,
position type 2 with bit 31 set, the function returns `12`. -/
theorem C2_sign_bit_input : _D3DXGetFVFVertexSize 0x80000002 = 12 := by
  decide

/-- C3 (counterexample): `fvf = 0x802` has bit 31 clear and eight texture sets;
setting bit 31 takes the result from `76` to `84`, not to `76 + 4`, because
bit 31 is also the high bit of the eighth texture code. -/
theorem C3_counterexample :
    0x802 < uintBound ∧ 0x802 &&& 0x80000000 = 0 ∧
      _D3DXGetFVFVertexSize 0x802 = 76 ∧
      _D3DXGetFVFVertexSize (0x802 ||| 0x80000000) = 84 ∧
      _D3DXGetFVFVertexSize (0x802 ||| 0x80000000) ≠ _D3DXGetFVFVertexSize 0x802 + 4 := by
  decide

/-- C3 (amended): for every 32-bit `fvf` with bit 31 clear and fewer than
eight texture sets, setting bit 31 changes the result by what the specular
step of source lines 39 to 41 adds for the new input and by nothing else: the
position, normal, point-size, diffuse and texture contributions are kept. -/
theorem C3_specular_bit_below_eight_sets (fvf : Nat) :
    fvf < uintBound → fvf &&& 0x80000000 = 0 → fvf >>> 8 &&& 0xf < 8 →
    _D3DXGetFVFVertexSize (fvf ||| 0x80000000) =
      specularStep (fvf ||| 0x80000000) (_D3DXGetFVFVertexSize fvf) := by
  intro _ _ hn
  have hcount : (fvf ||| 0x80000000) >>> 8 &&& 0xf = fvf >>> 8 &&& 0xf := by
    rw [shiftRight_or]
    exact or_and_mask (by decide)
  have hcode : ∀ i, i < fvf >>> 8 &&& 0xf →
      (fvf ||| 0x80000000) >>> 16 >>> (2 * i) &&& 3 = fvf >>> 16 >>> (2 * i) &&& 3 := by
    intro i hi
    rw [shiftRight_or, shiftRight_or]
    apply or_and_mask
    have hi7 : i < 7 := by omega
    interval_cases i <;> decide
  have hsum : ∑ i in Finset.range (fvf >>> 8 &&& 0xf),
        specCodeSize ((fvf ||| 0x80000000) >>> 16 >>> (2 * i) &&& 3) =
      ∑ i in Finset.range (fvf >>> 8 &&& 0xf),
        specCodeSize (fvf >>> 16 >>> (2 * i) &&& 3) :=
    Finset.sum_congr rfl (fun i hi => by rw [hcode i (Finset.mem_range.mp hi)])
  have hspec : specularStep fvf 0 = 0 := by simp [specularStep, charNul]
  rw [specularStep_eq, vertSize_eq, vertSize_eq fvf, hcount, hsum, hspec,
    positionSize_congr (or_and_mask (by decide) : (fvf ||| 0x80000000) &&& 0xe = fvf &&& 0xe),
    normalStep_congr (or_and_mask (by decide) : (fvf ||| 0x80000000) &&& 0x10 = fvf &&& 0x10),
    pointSizeStep_congr (or_and_mask (by decide) : (fvf ||| 0x80000000) &&& 0x20 = fvf &&& 0x20),
    diffuseStep_congr (or_and_mask (by decide) : (fvf ||| 0x80000000) &&& 0x40 = fvf &&& 0x40)]
  ring

/-- C3 (witness): the amended statement at `fvf = 0x702`, seven texture sets. -/
theorem C3_specular_bit_below_eight_sets_witness :
    0x702 < uintBound ∧ 0x702 &&& 0x80000000 = 0 ∧ 0x702 >>> 8 &&& 0xf < 8 ∧
      _D3DXGetFVFVertexSize (0x702 ||| 0x80000000) =
        specularStep (0x702 ||| 0x80000000) (_D3DXGetFVFVertexSize 0x702) :=
  ⟨by decide, by decide, by decide,
    C3_specular_bit_below_eight_sets 0x702 (by decide) (by decide) (by decide)⟩

/-- C4: for every 32-bit `fvf`, setting a clear normal bit (0x10) adds exactly
12, setting a clear point-size bit (0x20) adds exactly 4 and setting a clear
diffuse bit (0x40) adds exactly 4, whatever the other bits are; in particular
`f 0x12 = 24` and `f 0x42 = 16` against `f 0x02 = 12`. -/
theorem C4_low_flags_add_fixed_size (fvf : Nat) :
    fvf < uintBound →
    (fvf &&& 0x10 = 0 →
        _D3DXGetFVFVertexSize (fvf ||| 0x10) = _D3DXGetFVFVertexSize fvf + 12) ∧
      (fvf &&& 0x20 = 0 →
        _D3DXGetFVFVertexSize (fvf ||| 0x20) = _D3DXGetFVFVertexSize fvf + 4) ∧
      (fvf &&& 0x40 = 0 →
        _D3DXGetFVFVertexSize (fvf ||| 0x40) = _D3DXGetFVFVertexSize fvf + 4) ∧
      _D3DXGetFVFVertexSize 0x12 = 24 ∧ _D3DXGetFVFVertexSize 0x42 = 16 ∧
      _D3DXGetFVFVertexSize 0x02 = 12 := by
  intro _
  refine ⟨fun h => ?_, fun h => ?_, fun h => ?_, by decide, by decide, by decide⟩
  · obtain ⟨hp, h8, h16⟩ := low_flag_frame fvf 0x10 (by decide) (by decide)
    have hset : (fvf ||| 0x10) &&& 0x10 = 0x10 := by
      rw [Nat.and_distrib_right, h]; decide
    rw [vertSize_eq, vertSize_eq fvf, hp, h8, h16,
      specularStep_congr (fvf ||| 0x10) fvf,
      diffuseStep_congr (or_and_mask (by decide) : (fvf ||| 0x10) &&& 0x40 = fvf &&& 0x40),
      pointSizeStep_congr (or_and_mask (by decide) : (fvf ||| 0x10) &&& 0x20 = fvf &&& 0x20)]
    simp only [normalStep, hset, h]
    simp
    ring
  · obtain ⟨hp, h8, h16⟩ := low_flag_frame fvf 0x20 (by decide) (by decide)
    have hset : (fvf ||| 0x20) &&& 0x20 = 0x20 := by
      rw [Nat.and_distrib_right, h]; decide
    rw [vertSize_eq, vertSize_eq fvf, hp, h8, h16,
      specularStep_congr (fvf ||| 0x20) fvf,
      diffuseStep_congr (or_and_mask (by decide) : (fvf ||| 0x20) &&& 0x40 = fvf &&& 0x40),
      normalStep_congr (or_and_mask (by decide) : (fvf ||| 0x20) &&& 0x10 = fvf &&& 0x10)]
    simp only [pointSizeStep, hset, h]
    simp
    ring
  · obtain ⟨hp, h8, h16⟩ := low_flag_frame fvf 0x40 (by decide) (by decide)
    have hset : (fvf ||| 0x40) &&& 0x40 = 0x40 := by
      rw [Nat.and_distrib_right, h]; decide
    rw [vertSize_eq, vertSize_eq fvf, hp, h8, h16,
      specularStep_congr (fvf ||| 0x40) fvf,
      pointSizeStep_congr (or_and_mask (by decide) : (fvf ||| 0x40) &&& 0x20 = fvf &&& 0x20),
      normalStep_congr (or_and_mask (by decide) : (fvf ||| 0x40) &&& 0x10 = fvf &&& 0x10)]
    simp only [diffuseStep, hset, h]
    simp
    ring

/-- C4 (witness): the three flags set one at a time on `fvf = 0x02`. -/
theorem C4_low_flags_add_fixed_size_witness :
    0x02 < uintBound ∧
      _D3DXGetFVFVertexSize (0x02 ||| 0x10) = _D3DXGetFVFVertexSize 0x02 + 12 ∧
      _D3DXGetFVFVertexSize (0x02 ||| 0x20) = _D3DXGetFVFVertexSize 0x02 + 4 ∧
      _D3DXGetFVFVertexSize (0x02 ||| 0x40) = _D3DXGetFVFVertexSize 0x02 + 4 :=
  ⟨by decide,
    (C4_low_flags_add_fixed_size 0x02 (by decide)).1 (by decide),
    (C4_low_flags_add_fixed_size 0x02 (by decide)).2.1 (by decide),
    (C4_low_flags_add_fixed_size 0x02 (by decide)).2.2.1 (by decide)⟩

/-- C5: for every 32-bit `fvf` with no bit set outside the position field
(`fvf & ~0xE == 0`), `fvf` is one of 0, 2, 4, 6, 8, 10, 12, 14 and the result
is the table value 0, 12, 16, 16, 20, 24, 28, 32 respectively; in particular
the field 0 yields 0 and `fvf = 0x02` yields 12. -/
theorem C5_position_only_table (fvf : Nat) :
    fvf < uintBound → fvf &&& 0xFFFFFFF1 = 0 →
    (fvf = 0 ∧ _D3DXGetFVFVertexSize fvf = 0) ∨
      (fvf = 2 ∧ _D3DXGetFVFVertexSize fvf = 12) ∨
      (fvf = 4 ∧ _D3DXGetFVFVertexSize fvf = 16) ∨
      (fvf = 6 ∧ _D3DXGetFVFVertexSize fvf = 16) ∨
      (fvf = 8 ∧ _D3DXGetFVFVertexSize fvf = 20) ∨
      (fvf = 10 ∧ _D3DXGetFVFVertexSize fvf = 24) ∨
      (fvf = 12 ∧ _D3DXGetFVFVertexSize fvf = 28) ∨
      (fvf = 14 ∧ _D3DXGetFVFVertexSize fvf = 32) := by
  intro hu hmask
  have h32 : fvf < 2 ^ 32 := hu
  have hsplit : fvf = (fvf &&& 0xFFFFFFF1) ||| (fvf &&& 0xe) := by
    rw [← Nat.and_or_distrib_left]
    exact (Nat.and_pow_two_sub_one_of_lt_two_pow h32).symm
  have hlt : fvf < 16 := by
    rw [hsplit, hmask, Nat.zero_or]
    exact Nat.and_lt_two_pow fvf (by decide : 0xe < 2 ^ 4)
  interval_cases fvf <;> first | exact absurd hmask (by decide) | decide

/-- C5 (witness): the position-only input `fvf = 0x02`. -/
theorem C5_position_only_table_witness :
    0x02 < uintBound ∧ 0x02 &&& 0xFFFFFFF1 = 0 ∧
      ((0x02 = 0 ∧ _D3DXGetFVFVertexSize 0x02 = 0) ∨
      (0x02 = 2 ∧ _D3DXGetFVFVertexSize 0x02 = 12) ∨
      (0x02 = 4 ∧ _D3DXGetFVFVertexSize 0x02 = 16) ∨
      (0x02 = 6 ∧ _D3DXGetFVFVertexSize 0x02 = 16) ∨
      (0x02 = 8 ∧ _D3DXGetFVFVertexSize 0x02 = 20) ∨
      (0x02 = 10 ∧ _D3DXGetFVFVertexSize 0x02 = 24) ∨
      (0x02 = 12 ∧ _D3DXGetFVFVertexSize 0x02 = 28) ∨
      (0x02 = 14 ∧ _D3DXGetFVFVertexSize 0x02 = 32)) :=
  ⟨by decide, by decide, C5_position_only_table 0x02 (by decide) (by decide)⟩

/-- C6: for every 32-bit `fvf` with `n = (fvf >> 8) & 0xF`, the texture
contribution `f fvf - f (fvf with bits 8 to 11 cleared)` is the sum over
`i < n` of `size c_i`, where `c_i = (fvf >> (16 + 2 i)) & 3` for `i < 8`,
`c_i = 0` for `i >= 8`, and `size` maps 0, 1, 2, 3 to 8, 12, 16, 4; this holds
on both branches, and `f 0x102 = 20`, `f 0x00010202 = 32`. -/
theorem C6_texture_contribution (fvf : Nat) :
    fvf < uintBound →
    _D3DXGetFVFVertexSize fvf - _D3DXGetFVFVertexSize (fvf &&& 0xFFFFF0FF) =
        ∑ i in Finset.range (fvf >>> 8 &&& 0xF),
          specCodeSize (if i < 8 then fvf >>> (16 + 2 * i) &&& 3 else 0) ∧
      _D3DXGetFVFVertexSize 0x102 = 20 ∧ _D3DXGetFVFVertexSize 0x00010202 = 32 := by
  intro hu
  have h32 : fvf < 2 ^ 32 := hu
  refine ⟨?_, by decide, by decide⟩
  obtain ⟨hp, hn, hps, hd, hc⟩ := clear_count_frame fvf
  have hcode : ∀ i, fvf >>> 16 >>> (2 * i) &&& 3 =
      if i < 8 then fvf >>> (16 + 2 * i) &&& 3 else 0 := by
    intro i
    by_cases hi : i < 8
    · rw [if_pos hi, Nat.shiftRight_add]
    · rw [if_neg hi]
      exact code_eq_zero_of_ge (table_lt h32) (by omega)
  rw [vertSize_eq, vertSize_eq (fvf &&& 0xFFFFF0FF), hc, Finset.sum_range_zero,
    positionSize_congr hp, normalStep_congr hn, pointSizeStep_congr hps, diffuseStep_congr hd,
    specularStep_congr (fvf &&& 0xFFFFF0FF) fvf]
  simp only [hcode]
  ring

/-- C6 (witness): two sets with table `0b0001` on position type 2. -/
theorem C6_texture_contribution_witness :
    0x00010202 < uintBound ∧
      _D3DXGetFVFVertexSize 0x00010202 - _D3DXGetFVFVertexSize (0x00010202 &&& 0xFFFFF0FF) =
        ∑ i in Finset.range (0x00010202 >>> 8 &&& 0xF),
          specCodeSize (if i < 8 then 0x00010202 >>> (16 + 2 * i) &&& 3 else 0) :=
  ⟨by decide, (C6_texture_contribution 0x00010202 (by decide)).1⟩

/-- C7: for every 32-bit `fvf` with bit 31 clear, whose table `t = fvf >> 16`
is nonzero but has its low `2 * n` bits all zero, `n = (fvf >> 8) & 0xF`, the
result equals the result for `fvf & 0xFFFF`; the loop branch adds the same
`n * 8` as the `t == 0` branch. -/
theorem C7_zero_codes_agree_with_default (fvf : Nat) :
    fvf < uintBound → fvf &&& 0x80000000 = 0 → fvf >>> 16 ≠ 0 →
    fvf >>> 16 &&& (2 ^ (2 * (fvf >>> 8 &&& 0xf)) - 1) = 0 →
    _D3DXGetFVFVertexSize fvf = _D3DXGetFVFVertexSize (fvf &&& 0xFFFF) ∧
      (∀ v, (texCoordStep fvf v).vert_size = v + ((fvf >>> 8 &&& 0xf : Nat) : Int) * 8) ∧
      (∀ v, (texCoordStep (fvf &&& 0xFFFF) v).vert_size
        = v + ((fvf >>> 8 &&& 0xf : Nat) : Int) * 8) := by
  intro _ _ _ hlow
  have hcount : (fvf &&& 0xFFFF) >>> 8 &&& 0xf = fvf >>> 8 &&& 0xf := by
    rw [shiftRight_and]
    exact and_and_mask (by decide)
  have htable : (fvf &&& 0xFFFF) >>> 16 = 0 := by
    rw [shiftRight_and]
    have h : (0xFFFF : Nat) >>> 16 = 0 := by decide
    rw [h, Nat.and_zero]
  have hloop : ∑ i in Finset.range (fvf >>> 8 &&& 0xf),
        specCodeSize (fvf >>> 16 >>> (2 * i) &&& 3) = ((fvf >>> 8 &&& 0xf : Nat) : Int) * 8 := by
    rw [Finset.sum_congr rfl (fun i hi => by
      rw [code_eq_zero_of_low_bits hlow (Finset.mem_range.mp hi)])]
    simp [specCodeSize]
  have hdefault : ∑ i in Finset.range (fvf >>> 8 &&& 0xf),
        specCodeSize ((fvf &&& 0xFFFF) >>> 16 >>> (2 * i) &&& 3)
          = ((fvf >>> 8 &&& 0xf : Nat) : Int) * 8 := by
    simp [htable, specCodeSize]
  refine ⟨?_, fun v => ?_, fun v => ?_⟩
  · rw [vertSize_eq, vertSize_eq (fvf &&& 0xFFFF), hcount, hloop, hdefault,
      positionSize_congr (and_and_mask (by decide) : (fvf &&& 0xFFFF) &&& 0xe = fvf &&& 0xe),
      normalStep_congr (and_and_mask (by decide) : (fvf &&& 0xFFFF) &&& 0x10 = fvf &&& 0x10),
      pointSizeStep_congr (and_and_mask (by decide) : (fvf &&& 0xFFFF) &&& 0x20 = fvf &&& 0x20),
      diffuseStep_congr (and_and_mask (by decide) : (fvf &&& 0xFFFF) &&& 0x40 = fvf &&& 0x40),
      specularStep_congr (fvf &&& 0xFFFF) fvf]
  · rw [texCoordStep_eq, hloop]
  · rw [texCoordStep_eq, hcount, hdefault]

/-- C7 (witness): `fvf = 0x00100202`, two sets, table `0b10000`, against
`0x0202`. -/
theorem C7_zero_codes_agree_with_default_witness :
    (0x00100202 < uintBound ∧ 0x00100202 &&& 0x80000000 = 0 ∧ 0x00100202 >>> 16 ≠ 0 ∧
      0x00100202 >>> 16 &&& (2 ^ (2 * (0x00100202 >>> 8 &&& 0xf)) - 1) = 0) ∧
      _D3DXGetFVFVertexSize 0x00100202 = _D3DXGetFVFVertexSize (0x00100202 &&& 0xFFFF) :=
  ⟨by decide,
    (C7_zero_codes_agree_with_default 0x00100202 (by decide) (by decide) (by decide)
      (by decide)).1⟩

/-- C8: for every 32-bit `fvf` with nonzero table and count `n >= 8`, the
loop body runs exactly `n` times and the sets past the sixteen table bits
read as code 0: the result is the result for the same `fvf` with the count
field replaced by 8, plus `8 * (n - 8)`. -/
theorem C8_sets_past_table_read_zero (fvf : Nat) :
    fvf < uintBound → fvf >>> 16 ≠ 0 → 8 ≤ fvf >>> 8 &&& 0xf →
    (run fvf).iterations = fvf >>> 8 &&& 0xf ∧
      _D3DXGetFVFVertexSize fvf =
        _D3DXGetFVFVertexSize ((fvf &&& 0xFFFFF0FF) ||| 0x800)
          + 8 * (((fvf >>> 8 &&& 0xf : Nat) : Int) - 8) := by
  intro hu ht hn
  have h32 : fvf < 2 ^ 32 := hu
  obtain ⟨hp, hnm, hps, hd, hc⟩ := clear_count_frame fvf
  have hcount : ((fvf &&& 0xFFFFF0FF) ||| 0x800) >>> 8 &&& 0xf = 8 := by
    rw [shiftRight_or, Nat.and_distrib_right, hc]
    decide
  have htable : ((fvf &&& 0xFFFFF0FF) ||| 0x800) >>> 16 = fvf >>> 16 := by
    rw [or_shiftRight (by decide), shiftRight_and]
    have h : (0xFFFFF0FF : Nat) >>> 16 = 2 ^ 16 - 1 := by decide
    rw [h]
    exact Nat.and_pow_two_sub_one_of_lt_two_pow (table_lt h32)
  have hsplit : ∑ i in Finset.range (fvf >>> 8 &&& 0xf),
        specCodeSize (fvf >>> 16 >>> (2 * i) &&& 3) =
      ∑ i in Finset.range 8, specCodeSize (fvf >>> 16 >>> (2 * i) &&& 3)
        + 8 * (((fvf >>> 8 &&& 0xf : Nat) : Int) - 8) := by
    obtain ⟨m, hm⟩ : ∃ m, fvf >>> 8 &&& 0xf = 8 + m := ⟨_, (Nat.add_sub_cancel' hn).symm⟩
    rw [hm, Finset.sum_range_add]
    congr 1
    rw [Finset.sum_congr rfl (fun i _ => by
      rw [code_eq_zero_of_ge (table_lt h32) (Nat.le_add_right 8 i)])]
    simp [specCodeSize]
    ring
  constructor
  · unfold run
    rw [texCoordStep_eq, if_neg ht]
  · rw [vertSize_eq, vertSize_eq ((fvf &&& 0xFFFFF0FF) ||| 0x800), hcount, htable, hsplit,
      positionSize_congr ((or_and_mask (by decide)).trans hp),
      normalStep_congr ((or_and_mask (by decide)).trans hnm),
      pointSizeStep_congr ((or_and_mask (by decide)).trans hps),
      diffuseStep_congr ((or_and_mask (by decide)).trans hd),
      specularStep_congr ((fvf &&& 0xFFFFF0FF) ||| 0x800) fvf]
    ring

/-- C8 (witness): `fvf = 0x55550F02`, fifteen sets on a full table of code 1. -/
theorem C8_sets_past_table_read_zero_witness :
    (0x55550F02 < uintBound ∧ 0x55550F02 >>> 16 ≠ 0 ∧ 8 ≤ 0x55550F02 >>> 8 &&& 0xf) ∧
      (run 0x55550F02).iterations = 0x55550F02 >>> 8 &&& 0xf ∧
      _D3DXGetFVFVertexSize 0x55550F02 =
        _D3DXGetFVFVertexSize ((0x55550F02 &&& 0xFFFFF0FF) ||| 0x800)
          + 8 * (((0x55550F02 >>> 8 &&& 0xf : Nat) : Int) - 8) :=
  ⟨by decide, C8_sets_past_table_read_zero 0x55550F02 (by decide) (by decide) (by decide)⟩

/-- C9: the function is total, and for every 32-bit `fvf` it returns a size
after running its loop body exactly `(fvf >> 8) & 0xF` times when `fvf >> 16`
is nonzero and not at all otherwise, hence at most 15 times. -/
theorem C9_total_and_iteration_count (fvf : Nat) :
    fvf < uintBound →
    (∃ size : Int, run fvf = ⟨size, (run fvf).iterations⟩ ∧ _D3DXGetFVFVertexSize fvf = size) ∧
      (run fvf).iterations = (if fvf >>> 16 = 0 then 0 else fvf >>> 8 &&& 0xf) ∧
      (run fvf).iterations ≤ 15 := by
  intro _
  have hn := count_lt fvf
  have hiter : (run fvf).iterations = (if fvf >>> 16 = 0 then 0 else fvf >>> 8 &&& 0xf) := by
    unfold run
    rw [texCoordStep_eq]
  refine ⟨⟨(run fvf).vert_size, rfl, rfl⟩, hiter, ?_⟩
  rw [hiter]
  split <;> omega

/-- C9 (witness): `fvf = 0xAAAA0F7E`, where the loop body runs fifteen times. -/
theorem C9_total_and_iteration_count_witness :
    0xAAAA0F7E < uintBound ∧ (run 0xAAAA0F7E).iterations = 15 ∧
      (run 0xAAAA0F7E).iterations
        = (if 0xAAAA0F7E >>> 16 = 0 then 0 else 0xAAAA0F7E >>> 8 &&& 0xf) :=
  ⟨by decide, by decide, (C9_total_and_iteration_count 0xAAAA0F7E (by decide)).2.1⟩

/-- C10 (the code returns 236 where 240 is specified): at `fvf = 0xAAAA0F7E`,
position type 14 with the normal, point-size and diffuse bits, bit 31, fifteen
texture sets and eight codes 2, the function returns `236`. -/
theorem C10_maximal_input : _D3DXGetFVFVertexSize 0xAAAA0F7E = 236 := by
  decide

/-! ## Lemmas for single bits -/

theorem and_two_pow_eq_zero_iff (x k : Nat) : x &&& 2 ^ k = 0 ↔ x.testBit k = false := by
  constructor
  · intro h
    have hbit := congrArg (fun y => y.testBit k) h
    simpa [Nat.testBit_two_pow_self] using hbit
  · intro h
    apply Nat.eq_of_testBit_eq
    intro i
    by_cases hi : k = i
    · subst hi
      simp [h]
    · simp [Nat.testBit_two_pow, hi]

/-- With bit 30 set and bit 31 clear the eighth texture code is 1, and it is
3 once bit 31 is set. -/
theorem eighth_code {fvf : Nat} (h31 : fvf &&& 0x80000000 = 0) (h30 : fvf &&& 0x40000000 ≠ 0) :
    fvf >>> 16 >>> (2 * 7) &&& 3 = 1 ∧ (fvf ||| 0x80000000) >>> 16 >>> (2 * 7) &&& 3 = 3 := by
  have b31 : fvf.testBit 31 = false := (and_two_pow_eq_zero_iff fvf 31).mp h31
  have b30 : fvf.testBit 30 = true := by
    cases hb : fvf.testBit 30 with
    | true => rfl
    | false => exact absurd ((and_two_pow_eq_zero_iff fvf 30).mpr hb) h30
  have t3 : ∀ j, Nat.testBit 3 j = decide (j < 2) :=
    fun j => Nat.testBit_two_pow_sub_one 2 j
  have t1 : ∀ j, Nat.testBit 1 j = decide (j < 1) :=
    fun j => Nat.testBit_two_pow_sub_one 1 j
  have tB : ∀ j, Nat.testBit 0x80000000 j = decide (31 = j) :=
    fun j => @Nat.testBit_two_pow 31 j
  constructor
  · apply Nat.eq_of_testBit_eq
    intro j
    simp only [Nat.testBit_and, Nat.testBit_shiftRight, t3, t1]
    rcases j with _ | _ | j
    · simp [b30]
    · simp [b31]
    · simp
  · apply Nat.eq_of_testBit_eq
    intro j
    simp only [Nat.testBit_and, Nat.testBit_shiftRight, Nat.testBit_or, t3, tB]
    rcases j with _ | _ | j
    · simp [b30]
    · simp
    · simp

/-- Setting bit 31 leaves every texture code but the eighth as it was. -/
theorem other_codes (fvf : Nat) {i : Nat} (hi : i ≠ 7) :
    (fvf ||| 0x80000000) >>> 16 >>> (2 * i) &&& 3 = fvf >>> 16 >>> (2 * i) &&& 3 := by
  rw [shiftRight_or, shiftRight_or]
  apply or_and_mask
  by_cases h8 : 8 ≤ i
  · exact code_eq_zero_of_ge (by decide) h8
  · have hlt : i < 8 := by omega
    interval_cases i <;> first | exact absurd rfl hi | decide

/-! ## Divisibility of the contributions -/

theorem specBase_dvd (c : Nat) : (4 : Int) ∣ specBase c := by
  unfold specBase
  split <;> norm_num

theorem specCodeSize_dvd (c : Nat) : (4 : Int) ∣ specCodeSize c := by
  unfold specCodeSize
  split <;> norm_num

theorem normalStep_dvd (fvf : Nat) : (4 : Int) ∣ normalStep fvf 0 := by
  unfold normalStep
  split <;> norm_num

theorem pointSizeStep_dvd (fvf : Nat) : (4 : Int) ∣ pointSizeStep fvf 0 := by
  unfold pointSizeStep
  split <;> norm_num

theorem diffuseStep_dvd (fvf : Nat) : (4 : Int) ∣ diffuseStep fvf 0 := by
  unfold diffuseStep
  split <;> norm_num

/-! ## The claims, continued -/

/-- C11: the function is deterministic and stateless: two calls with equal
32-bit arguments return equal results (and run the loop equally often), and a
call made in any ambient state returns a result that does not depend on that
state and leaves the state as it was. -/
theorem C11_deterministic_and_stateless (a b : Nat) :
    a < uintBound → b < uintBound → a = b →
    _D3DXGetFVFVertexSize a = _D3DXGetFVFVertexSize b ∧ run a = run b ∧
      ∀ (σ : Type) (s s' : σ),
        (call s a).1 = (call s' b).1 ∧ (call s a).2 = s ∧ (call s' b).2 = s' := by
  intro _ _ hab
  subst hab
  exact ⟨rfl, rfl, fun _ _ _ => ⟨rfl, rfl, rfl⟩⟩

/-- C11 (witness): the argument `0x102` written in two ways, with calls made
in the ambient states `true` and `false`. -/
theorem C11_deterministic_and_stateless_witness :
    (0x102 < uintBound ∧ 0x100 ||| 0x2 < uintBound ∧ 0x102 = 0x100 ||| 0x2) ∧
      _D3DXGetFVFVertexSize 0x102 = _D3DXGetFVFVertexSize (0x100 ||| 0x2) ∧
      (call true 0x102).1 = (call false (0x100 ||| 0x2)).1 :=
  ⟨by decide,
    (C11_deterministic_and_stateless 0x102 (0x100 ||| 0x2) (by decide) (by decide)
      (by decide)).1,
    ((C11_deterministic_and_stateless 0x102 (0x100 ||| 0x2) (by decide) (by decide)
      (by decide)).2.2 Bool true false).1⟩

/-- C12: bits 0, 7 and 12 to 15 never influence the result: for every 32-bit
`fvf` the result is the result for `fvf & 0xFFFF0F7E`; the position field
`fvf & 0xe` read by the function is always even, so none of the odd values
1, 3, ..., 15 occurs. -/
theorem C12_unread_bits (fvf : Nat) :
    fvf < uintBound →
    _D3DXGetFVFVertexSize fvf = _D3DXGetFVFVertexSize (fvf &&& 0xFFFF0F7E) ∧
      (fvf &&& 0xe) % 2 = 0 ∧ fvf &&& 0xe ∉ [1, 3, 5, 7, 9, 11, 13, 15] := by
  intro hu
  have h32 : fvf < 2 ^ 32 := hu
  have hcount : (fvf &&& 0xFFFF0F7E) >>> 8 &&& 0xf = fvf >>> 8 &&& 0xf := by
    rw [shiftRight_and]
    exact and_and_mask (by decide)
  have htable : (fvf &&& 0xFFFF0F7E) >>> 16 = fvf >>> 16 := by
    rw [shiftRight_and]
    have h : (0xFFFF0F7E : Nat) >>> 16 = 2 ^ 16 - 1 := by decide
    rw [h]
    exact Nat.and_pow_two_sub_one_of_lt_two_pow (table_lt h32)
  have heven : (fvf &&& 0xe) % 2 = 0 := by
    have hodd : ¬ (fvf &&& 0xe) % 2 = 1 := by
      rw [Nat.and_mod_two_eq_one]
      rintro ⟨_, h⟩
      exact absurd h (by decide)
    omega
  refine ⟨?_, heven, ?_⟩
  · rw [vertSize_eq, vertSize_eq (fvf &&& 0xFFFF0F7E), hcount, htable,
      positionSize_congr (and_and_mask (by decide) : (fvf &&& 0xFFFF0F7E) &&& 0xe = fvf &&& 0xe),
      normalStep_congr (and_and_mask (by decide) : (fvf &&& 0xFFFF0F7E) &&& 0x10 = fvf &&& 0x10),
      pointSizeStep_congr
        (and_and_mask (by decide) : (fvf &&& 0xFFFF0F7E) &&& 0x20 = fvf &&& 0x20),
      diffuseStep_congr (and_and_mask (by decide) : (fvf &&& 0xFFFF0F7E) &&& 0x40 = fvf &&& 0x40),
      specularStep_congr (fvf &&& 0xFFFF0F7E) fvf]
  · intro hmem
    simp only [List.mem_cons, List.mem_singleton, List.not_mem_nil, or_false] at hmem
    omega

/-- C12 (witness): `fvf = 0x0001F283` against `0x00010202`. -/
theorem C12_unread_bits_witness :
    0x0001F283 < uintBound ∧ 0x0001F283 &&& 0xFFFF0F7E = 0x00010202 ∧
      _D3DXGetFVFVertexSize 0x0001F283 = _D3DXGetFVFVertexSize (0x0001F283 &&& 0xFFFF0F7E) :=
  ⟨by decide, by decide, (C12_unread_bits 0x0001F283 (by decide)).1⟩

/-- C13: for every 32-bit `fvf` with bit 31 clear, bit 30 set and at least
eight texture sets, setting bit 31 strictly decreases the result: bit 31 is
the high bit of the eighth set's code, which goes from 1 (12 bytes) to 3
(4 bytes). -/
theorem C13_bit31_decreases (fvf : Nat) :
    fvf < uintBound → fvf &&& 0x80000000 = 0 → fvf &&& 0x40000000 ≠ 0 →
    8 ≤ fvf >>> 8 &&& 0xf →
    _D3DXGetFVFVertexSize (fvf ||| 0x80000000) < _D3DXGetFVFVertexSize fvf ∧
      fvf >>> 30 &&& 3 = 1 ∧ (fvf ||| 0x80000000) >>> 30 &&& 3 = 3 := by
  intro _ h31 h30 hn
  obtain ⟨hbefore, hafter⟩ := eighth_code h31 h30
  have hcount : (fvf ||| 0x80000000) >>> 8 &&& 0xf = fvf >>> 8 &&& 0xf := by
    rw [shiftRight_or]
    exact or_and_mask (by decide)
  have hsum : ∑ i in Finset.range (fvf >>> 8 &&& 0xf),
        specCodeSize ((fvf ||| 0x80000000) >>> 16 >>> (2 * i) &&& 3) <
      ∑ i in Finset.range (fvf >>> 8 &&& 0xf),
        specCodeSize (fvf >>> 16 >>> (2 * i) &&& 3) := by
    apply Finset.sum_lt_sum
    · intro i _
      by_cases hi : i = 7
      · subst hi
        rw [hbefore, hafter]
        decide
      · rw [other_codes fvf hi]
    · refine ⟨7, Finset.mem_range.mpr (by omega), ?_⟩
      rw [hbefore, hafter]
      decide
  refine ⟨?_, ?_, ?_⟩
  · rw [vertSize_eq, vertSize_eq fvf, hcount,
      positionSize_congr (or_and_mask (by decide) : (fvf ||| 0x80000000) &&& 0xe = fvf &&& 0xe),
      normalStep_congr (or_and_mask (by decide) : (fvf ||| 0x80000000) &&& 0x10 = fvf &&& 0x10),
      pointSizeStep_congr
        (or_and_mask (by decide) : (fvf ||| 0x80000000) &&& 0x20 = fvf &&& 0x20),
      diffuseStep_congr (or_and_mask (by decide) : (fvf ||| 0x80000000) &&& 0x40 = fvf &&& 0x40),
      specularStep_congr (fvf ||| 0x80000000) fvf]
    omega
  · show fvf >>> (16 + 2 * 7) &&& 3 = 1
    rw [Nat.shiftRight_add]
    exact hbefore
  · show (fvf ||| 0x80000000) >>> (16 + 2 * 7) &&& 3 = 3
    rw [Nat.shiftRight_add]
    exact hafter

/-- C13 (witness): `fvf = 0x40000802`, eight sets with the eighth code 1: the
result goes from 80 to 72. -/
theorem C13_bit31_decreases_witness :
    (0x40000802 < uintBound ∧ 0x40000802 &&& 0x80000000 = 0 ∧
      0x40000802 &&& 0x40000000 ≠ 0 ∧ 8 ≤ 0x40000802 >>> 8 &&& 0xf) ∧
      _D3DXGetFVFVertexSize 0x40000802 = 80 ∧
      _D3DXGetFVFVertexSize (0x40000802 ||| 0x80000000) = 72 ∧
      _D3DXGetFVFVertexSize (0x40000802 ||| 0x80000000) < _D3DXGetFVFVertexSize 0x40000802 :=
  ⟨by decide, by decide, by decide,
    (C13_bit31_decreases 0x40000802 (by decide) (by decide) (by decide) (by decide)).1⟩

/-- C14: for every 32-bit `fvf` the result is a multiple of 4, every base
size, flag contribution and texture-set contribution being one. -/
theorem C14_multiple_of_four (fvf : Nat) :
    fvf < uintBound → (4 : Int) ∣ _D3DXGetFVFVertexSize fvf := by
  intro _
  rw [vertSize_eq, specularStep_zero, positionSize_eq_specBase]
  exact dvd_add
    (dvd_add
      (dvd_add
        (dvd_add (dvd_add (specBase_dvd _) (normalStep_dvd fvf)) (pointSizeStep_dvd fvf))
        (diffuseStep_dvd fvf))
      (dvd_zero 4))
    (Finset.dvd_sum (fun i _ => specCodeSize_dvd _))

/-- C14 (witness): `fvf = 0xAAAA0F7E`, whose result is `4 * 59`. -/
theorem C14_multiple_of_four_witness :
    0xAAAA0F7E < uintBound ∧ (4 : Int) ∣ _D3DXGetFVFVertexSize 0xAAAA0F7E :=
  ⟨by decide, C14_multiple_of_four 0xAAAA0F7E (by decide)⟩

end ScrapParse
